import Mathlib

/-!
Shallow embedding of the buffer-transcoding layer of pydrobert-kaldi:
the NumpyVector and NumpyMatrix classes (src/pydrobert/kaldi/vector.cpp,
src/pydrobert/kaldi/matrix.cpp) and the table writer convenience paths
(include/pydrobert/kaldi/tables.hpp).

Modelling choices:
- Caller-owned flat memory buffers are total functions Nat -> alpha (index
  to element).  A memcpy over a region is a pointwise overwrite of that
  region; everything outside the region keeps the old value.
- The element type is a type parameter alpha, mirroring the template
  parameter Real; no arithmetic is ever performed on elements, only copying,
  so the embedding is polymorphic.
- A kaldi Vector is modelled by its dimension and its data pointer
  contents; a kaldi Matrix by row count, column count, row stride, and data
  contents (element (r, c) lives at index r * stride + c).
- kaldi Resize with kUndefined reallocates: the new stride chosen by the
  allocator and the uninitialized memory contents are nondeterministic, so
  they are passed as explicit parameters (freshStride, freshData) to
  SetData; theorems quantify over all choices, constrained only by the
  kaldi invariant cols <= stride.
-/

/-- A flat caller-owned buffer of elements, indexed from 0. -/
def Buffer (α : Type) : Type := Nat → α

/-- Overwrite of the region [dOff, dOff + len) of dst with the elements of
src starting at sOff, exactly as a C memcpy of len elements. -/
def memcpy {α : Type} (dst : Buffer α) (dOff : Nat) (src : Buffer α)
    (sOff : Nat) (len : Nat) : Buffer α :=
  fun i => if dOff ≤ i ∧ i < dOff + len then src (sOff + (i - dOff)) else dst i

/-- The row-by-row copy loop shared by SetData and ReadDataInto: for each
row r in [0, n), copy cols elements from src at offset r * sStr to dst at
offset r * dStr.  Rows are processed in increasing order, the recursive
call handling the first n rows and the outer memcpy the last one, which
matches the C loop (the regions are disjoint when cols <= dStr). -/
def copyRows {α : Type} (dst src : Buffer α) (dStr sStr cols : Nat) :
    Nat → Buffer α
  | 0 => dst
  | n + 1 => memcpy (copyRows dst src dStr sStr cols n) (n * dStr) src (n * sStr) cols

/-- State of a kaldi Vector subclassed by NumpyVector: dimension and data
contents. -/
structure KVector (α : Type) : Type where
  dim : Nat
  data : Buffer α

/-- A default-constructed kaldi Vector: dimension 0, null data (never read
while the dimension is 0, so any placeholder contents are faithful). -/
def KVector.fresh (α : Type) [Inhabited α] : KVector α :=
  { dim := 0, data := fun _ => default }

/-- NumpyVector SetData, from src/pydrobert/kaldi/vector.cpp lines 3-10:
if the current dimension differs from len, Resize(len, kUndefined), which
replaces the data with uninitialized memory (the junk parameter); then
memcpy len elements from the source buffer into the data pointer. -/
def KVector.SetData {α : Type} (v : KVector α) (src : Buffer α) (len : Nat)
    (junk : Buffer α) : KVector α :=
  let v1 := if v.dim ≠ len then { dim := len, data := junk } else v
  { v1 with data := memcpy v1.data 0 src 0 len }

/-- NumpyVector ReadDataInto, from src/pydrobert/kaldi/vector.cpp lines
12-19: return false if the stored dimension differs from len; return true
without any copy if len is 0; otherwise memcpy len elements from the data
pointer into the destination buffer and return true.  The C++ method is
const, so it is a pure function of the vector returning the success flag
and the resulting destination buffer. -/
def KVector.ReadDataInto {α : Type} (v : KVector α) (len : Nat)
    (dest : Buffer α) : Bool × Buffer α :=
  if v.dim ≠ len then (false, dest)
  else if len = 0 then (true, dest)
  else (true, memcpy dest 0 v.data 0 len)

/-- State of a kaldi Matrix subclassed by NumpyMatrix: row count, column
count, row stride (elements between starts of consecutive rows, at least
the column count by the kaldi allocation invariant), and data contents. -/
structure KMatrix (α : Type) : Type where
  numRows : Nat
  numCols : Nat
  stride : Nat
  data : Buffer α

/-- A default-constructed kaldi Matrix: 0 rows, 0 columns, stride 0, null
data. -/
def KMatrix.fresh (α : Type) [Inhabited α] : KMatrix α :=
  { numRows := 0, numCols := 0, stride := 0, data := fun _ => default }

/-- The body of NumpyMatrix SetData after the degenerate-shape check, from
src/pydrobert/kaldi/matrix.cpp lines 12-27: if the stored shape differs
from (rows, cols), Resize(rows, cols, kUndefined), which installs a fresh
allocator-chosen stride and uninitialized contents; then copy rows * cols
elements from the row-major source, in one contiguous memcpy when the
stride equals cols and row by row otherwise. -/
def KMatrix.SetDataCore {α : Type} (m : KMatrix α) (src : Buffer α)
    (rows cols freshStride : Nat) (freshData : Buffer α) : KMatrix α :=
  let m1 := if m.numRows ≠ rows ∨ m.numCols ≠ cols then
      { numRows := rows, numCols := cols, stride := freshStride, data := freshData }
    else m
  if m1.stride = cols then
    { m1 with data := memcpy m1.data 0 src 0 (rows * cols) }
  else
    { m1 with data := copyRows m1.data src m1.stride cols cols rows }

/-- NumpyMatrix SetData, from src/pydrobert/kaldi/matrix.cpp lines 3-28:
if exactly one of rows and cols is zero (so the product is zero but not
both dimensions are), delegate to the (0, 0) case before anything else;
otherwise run the resize-and-copy body. -/
def KMatrix.SetData {α : Type} (m : KMatrix α) (src : Buffer α)
    (rows cols freshStride : Nat) (freshData : Buffer α) : KMatrix α :=
  if (rows ≠ 0 ∨ cols ≠ 0) ∧ rows * cols = 0 then
    m.SetDataCore src 0 0 freshStride freshData
  else
    m.SetDataCore src rows cols freshStride freshData

/-- NumpyMatrix ReadDataInto, from src/pydrobert/kaldi/matrix.cpp lines
30-52: if the queried product rows * cols is zero, succeed exactly when
the stored matrix has zero rows or zero columns, touching nothing;
otherwise fail when the stored shape differs from (rows, cols); otherwise
copy the stored contents into the row-major destination, contiguously when
the stride equals cols and row by row otherwise.  The C++ method is const,
so it is a pure function returning the success flag and the resulting
destination buffer. -/
def KMatrix.ReadDataInto {α : Type} (m : KMatrix α) (rows cols : Nat)
    (dest : Buffer α) : Bool × Buffer α :=
  if rows * cols = 0 then
    (decide (m.numRows = 0 ∨ m.numCols = 0), dest)
  else if m.numRows ≠ rows ∨ m.numCols ≠ cols then
    (false, dest)
  else if m.stride = cols then
    (true, memcpy dest 0 m.data 0 (rows * cols))
  else
    (true, copyRows dest m.data cols m.stride cols rows)

/-- Modelled from the spec: the external keyed-table store (kaldi
TableWriter, outside this repository) appends or associates a value under
a string key; ordering and duplicate-key policy are delegated to the
store, so it is modelled as a plain record list with append. -/
def writeRecord {β : Type} (store : List (String × β)) (key : String)
    (value : β) : List (String × β) :=
  store ++ [(key, value)]

/-- ExtNumpyVectorWriter Write, from include/pydrobert/kaldi/tables.hpp:
forwards to the external kaldi TableWriter Write unchanged. -/
def ExtNumpyVectorWriter.Write {α : Type} (store : List (String × KVector α))
    (key : String) (value : KVector α) : List (String × KVector α) :=
  writeRecord store key value

/-- ExtNumpyVectorWriter WriteData, from include/pydrobert/kaldi/tables.hpp
lines 105-110: default-construct a NumpyVector, SetData from the flat
buffer, then Write it under the key.  The junk parameter is the
uninitialized memory installed by the Resize inside SetData. -/
def ExtNumpyVectorWriter.WriteData {α : Type} [Inhabited α]
    (store : List (String × KVector α)) (key : String) (src : Buffer α)
    (len : Nat) (junk : Buffer α) : List (String × KVector α) :=
  ExtNumpyVectorWriter.Write store key ((KVector.fresh α).SetData src len junk)

/-- ExtNumpyMatrixWriter Write, from include/pydrobert/kaldi/tables.hpp:
forwards to the external kaldi TableWriter Write unchanged. -/
def ExtNumpyMatrixWriter.Write {α : Type} (store : List (String × KMatrix α))
    (key : String) (value : KMatrix α) : List (String × KMatrix α) :=
  writeRecord store key value

/-- ExtNumpyMatrixWriter WriteData, from include/pydrobert/kaldi/tables.hpp
lines 125-130: default-construct a NumpyMatrix, SetData from the flat
buffer and shape, then Write it under the key. -/
def ExtNumpyMatrixWriter.WriteData {α : Type} [Inhabited α]
    (store : List (String × KMatrix α)) (key : String) (src : Buffer α)
    (rows cols freshStride : Nat) (freshData : Buffer α) :
    List (String × KMatrix α) :=
  ExtNumpyMatrixWriter.Write store key
    ((KMatrix.fresh α).SetData src rows cols freshStride freshData)

/-! Helper lemmas about the copy primitives and the matrix state. -/

theorem memcpy_in {α : Type} (dst src : Buffer α) (dOff sOff len i : Nat)
    (h1 : dOff ≤ i) (h2 : i < dOff + len) :
    memcpy dst dOff src sOff len i = src (sOff + (i - dOff)) := by
  simp [memcpy, h1, h2]

theorem memcpy_out {α : Type} (dst src : Buffer α) (dOff sOff len i : Nat)
    (h : i < dOff ∨ dOff + len ≤ i) :
    memcpy dst dOff src sOff len i = dst i := by
  have hno : ¬(dOff ≤ i ∧ i < dOff + len) := by omega
  simp [memcpy, hno]

theorem copyRows_in {α : Type} (dst src : Buffer α) (dStr sStr cols : Nat)
    (hcols : cols ≤ dStr) (n r j : Nat) (hr : r < n) (hj : j < cols) :
    copyRows dst src dStr sStr cols n (r * dStr + j) = src (r * sStr + j) := by
  induction n with
  | zero => exact absurd hr (Nat.not_lt_zero r)
  | succ n ih =>
    by_cases hrn : r = n
    · subst hrn
      rw [copyRows, memcpy_in]
      · congr 1
        omega
      · exact Nat.le_add_right _ _
      · exact Nat.add_lt_add_left hj _
    · have hr' : r < n := Nat.lt_of_le_of_ne (Nat.lt_succ_iff.mp hr) hrn
      rw [copyRows, memcpy_out, ih hr']
      left
      calc r * dStr + j < r * dStr + dStr := Nat.add_lt_add_left (Nat.lt_of_lt_of_le hj hcols) _
        _ = (r + 1) * dStr := (Nat.succ_mul r dStr).symm
        _ ≤ n * dStr := Nat.mul_le_mul_right dStr hr'

theorem setDataCore_numRows {α : Type} (m : KMatrix α) (src : Buffer α)
    (rows cols fS : Nat) (fD : Buffer α) :
    (m.SetDataCore src rows cols fS fD).numRows = rows := by
  unfold KMatrix.SetDataCore
  by_cases h : m.numRows ≠ rows ∨ m.numCols ≠ cols
  · simp only [if_pos h]
    split <;> rfl
  · simp only [if_neg h]
    push_neg at h
    split <;> simp [h.1]

theorem setDataCore_numCols {α : Type} (m : KMatrix α) (src : Buffer α)
    (rows cols fS : Nat) (fD : Buffer α) :
    (m.SetDataCore src rows cols fS fD).numCols = cols := by
  unfold KMatrix.SetDataCore
  by_cases h : m.numRows ≠ rows ∨ m.numCols ≠ cols
  · simp only [if_pos h]
    split <;> rfl
  · simp only [if_neg h]
    push_neg at h
    split <;> simp [h.2]

theorem setData_shape {α : Type} (m : KMatrix α) (src : Buffer α)
    (rows cols fS : Nat) (fD : Buffer α) :
    (m.SetData src rows cols fS fD).numRows
        = (if rows = 0 ∨ cols = 0 then 0 else rows) ∧
    (m.SetData src rows cols fS fD).numCols
        = (if rows = 0 ∨ cols = 0 then 0 else cols) := by
  unfold KMatrix.SetData
  by_cases hdeg : (rows ≠ 0 ∨ cols ≠ 0) ∧ rows * cols = 0
  · have h0 : rows = 0 ∨ cols = 0 := by
      rcases Nat.mul_eq_zero.mp hdeg.2 with h | h
      · exact Or.inl h
      · exact Or.inr h
    rw [if_pos hdeg]
    exact ⟨by rw [setDataCore_numRows, if_pos h0],
           by rw [setDataCore_numCols, if_pos h0]⟩
  · rw [if_neg hdeg]
    by_cases hr : rows = 0
    · by_cases hc : cols = 0
      · subst hr; subst hc
        exact ⟨by rw [setDataCore_numRows]; simp,
               by rw [setDataCore_numCols]; simp⟩
      · exact absurd ⟨Or.inr hc, by simp [hr]⟩ hdeg
    · by_cases hc : cols = 0
      · exact absurd ⟨Or.inl hr, by simp [hc]⟩ hdeg
      · have h0 : ¬(rows = 0 ∨ cols = 0) := by tauto
        exact ⟨by rw [setDataCore_numRows, if_neg h0],
               by rw [setDataCore_numCols, if_neg h0]⟩

theorem setDataCore_resize {α : Type} (m : KMatrix α) (src : Buffer α)
    (rows cols fS : Nat) (fD : Buffer α)
    (hres : m.numRows ≠ rows ∨ m.numCols ≠ cols) :
    m.SetDataCore src rows cols fS fD =
      if fS = cols then
        { numRows := rows, numCols := cols, stride := fS,
          data := memcpy fD 0 src 0 (rows * cols) }
      else
        { numRows := rows, numCols := cols, stride := fS,
          data := copyRows fD src fS cols cols rows } := by
  simp [KMatrix.SetDataCore, if_pos hres]

theorem setDataCore_noresize {α : Type} (m : KMatrix α) (src : Buffer α)
    (rows cols fS : Nat) (fD : Buffer α)
    (hres : ¬(m.numRows ≠ rows ∨ m.numCols ≠ cols)) :
    m.SetDataCore src rows cols fS fD =
      if m.stride = cols then
        { m with data := memcpy m.data 0 src 0 (rows * cols) }
      else
        { m with data := copyRows m.data src m.stride cols cols rows } := by
  simp [KMatrix.SetDataCore, if_neg hres]

theorem setDataCore_readDataInto {α : Type} (m : KMatrix α)
    (src dest fD : Buffer α) (rows cols fS : Nat)
    (hr0 : rows ≠ 0) (hc0 : cols ≠ 0)
    (hwf : m.numCols ≤ m.stride) (hfs : cols ≤ fS) :
    ((m.SetDataCore src rows cols fS fD).ReadDataInto rows cols dest).1 = true ∧
    ∀ i, i < rows * cols →
      ((m.SetDataCore src rows cols fS fD).ReadDataInto rows cols dest).2 i
        = src i := by
  have hz : rows * cols ≠ 0 := Nat.mul_ne_zero hr0 hc0
  have hsplit : ∀ i, i < rows * cols →
      ∃ q t, q < rows ∧ t < cols ∧ i = q * cols + t := by
    intro i hi
    refine ⟨i / cols, i % cols, ?_, ?_, ?_⟩
    · rw [Nat.mul_comm] at hi
      exact Nat.div_lt_of_lt_mul hi
    · exact Nat.mod_lt _ (Nat.pos_of_ne_zero hc0)
    · rw [Nat.mul_comm]
      exact (Nat.div_add_mod i cols).symm
  by_cases hres : m.numRows ≠ rows ∨ m.numCols ≠ cols
  · rw [setDataCore_resize m src rows cols fS fD hres]
    by_cases hsc : fS = cols
    · rw [if_pos hsc]
      unfold KMatrix.ReadDataInto
      rw [if_neg hz, if_neg (by simp), if_pos (by simp [hsc])]
      refine ⟨rfl, fun i hi => ?_⟩
      dsimp only
      rw [memcpy_in dest _ 0 0 (rows * cols) i (Nat.zero_le i) (by omega)]
      simp only [Nat.zero_add, Nat.sub_zero]
      rw [memcpy_in fD src 0 0 (rows * cols) i (Nat.zero_le i) (by omega)]
      simp
    · rw [if_neg hsc]
      unfold KMatrix.ReadDataInto
      rw [if_neg hz, if_neg (by simp), if_neg (by simp [hsc])]
      refine ⟨rfl, fun i hi => ?_⟩
      dsimp only
      obtain ⟨q, t, hq, ht, rfl⟩ := hsplit i hi
      rw [copyRows_in dest _ cols fS cols (Nat.le_refl cols) rows q t hq ht]
      exact copyRows_in fD src fS cols cols hfs rows q t hq ht
  · push_neg at hres
    have hcols : cols ≤ m.stride := hres.2 ▸ hwf
    rw [setDataCore_noresize m src rows cols fS fD (by push_neg; exact hres)]
    by_cases hsc : m.stride = cols
    · rw [if_pos hsc]
      unfold KMatrix.ReadDataInto
      rw [if_neg hz, if_neg (by simp [hres.1, hres.2]), if_pos (by simp [hsc])]
      refine ⟨rfl, fun i hi => ?_⟩
      dsimp only
      rw [memcpy_in dest _ 0 0 (rows * cols) i (Nat.zero_le i) (by omega)]
      simp only [Nat.zero_add, Nat.sub_zero]
      rw [memcpy_in m.data src 0 0 (rows * cols) i (Nat.zero_le i) (by omega)]
      simp
    · rw [if_neg hsc]
      unfold KMatrix.ReadDataInto
      rw [if_neg hz, if_neg (by simp [hres.1, hres.2]), if_neg (by simp [hsc])]
      refine ⟨rfl, fun i hi => ?_⟩
      dsimp only
      obtain ⟨q, t, hq, ht, rfl⟩ := hsplit i hi
      rw [copyRows_in dest _ cols m.stride cols (Nat.le_refl cols) rows q t hq ht]
      exact copyRows_in m.data src m.stride cols cols hcols rows q t hq ht

theorem setData_readDataInto_core {α : Type} (m : KMatrix α)
    (src dest fD : Buffer α) (rows cols fS : Nat)
    (hwf : m.numCols ≤ m.stride) (hfs : cols ≤ fS) :
    ((m.SetData src rows cols fS fD).ReadDataInto rows cols dest).1 = true ∧
    ∀ i, i < rows * cols →
      ((m.SetData src rows cols fS fD).ReadDataInto rows cols dest).2 i
        = src i := by
  by_cases hz : rows * cols = 0
  · have h0 : rows = 0 ∨ cols = 0 := by
      rcases Nat.mul_eq_zero.mp hz with h | h
      · exact Or.inl h
      · exact Or.inr h
    have hs := setData_shape m src rows cols fS fD
    unfold KMatrix.ReadDataInto
    rw [if_pos hz]
    refine ⟨?_, fun i hi => ?_⟩
    · simp [hs.1, if_pos h0]
    · rw [hz] at hi
      exact absurd hi (Nat.not_lt_zero i)
  · have hr0 : rows ≠ 0 := fun h => hz (by simp [h])
    have hc0 : cols ≠ 0 := fun h => hz (by simp [h])
    unfold KMatrix.SetData
    rw [if_neg (fun h => hz h.2)]
    exact setDataCore_readDataInto m src dest fD rows cols fS hr0 hc0 hwf hfs

theorem vector_setData_dim {α : Type} (v : KVector α) (src : Buffer α)
    (len : Nat) (junk : Buffer α) :
    (v.SetData src len junk).dim = len := by
  by_cases h : v.dim ≠ len
  · simp [KVector.SetData, h]
  · push_neg at h
    simp [KVector.SetData, h]

/-! Claim theorems. -/

/-- C1: for every shape with nonnegative row and column counts and every
row-major source buffer of that shape, SetData with the shape followed by
ReadDataInto of the same shape returns true and makes the destination
buffer equal to the source buffer element for element on the rows * cols
copied positions.  The hypotheses quantify over the nondeterministic
allocator choices, constrained only by the kaldi invariant that a stride
is at least the column count. -/
theorem matrix_setData_readDataInto_roundtrip {α : Type} (m : KMatrix α)
    (src dest fD : Buffer α) (rows cols fS : Nat)
    (hwf : m.numCols ≤ m.stride) (hfs : cols ≤ fS) :
    ((m.SetData src rows cols fS fD).ReadDataInto rows cols dest).1 = true ∧
    ∀ i, i < rows * cols →
      ((m.SetData src rows cols fS fD).ReadDataInto rows cols dest).2 i
        = src i :=
  setData_readDataInto_core m src dest fD rows cols fS hwf hfs

/-- Witness for the matrix round-trip theorem: shape (2, 3), padded stride
4, source buffer holding 0, 1, 2, 3, 4, 5. -/
theorem matrix_setData_readDataInto_roundtrip_witness :
    (((KMatrix.fresh Int).SetData (fun i => (i : Int)) 2 3 4
        (fun _ => 0)).ReadDataInto 2 3 (fun _ => 99)).1 = true ∧
    ∀ i, i < 2 * 3 →
      (((KMatrix.fresh Int).SetData (fun i => (i : Int)) 2 3 4
          (fun _ => 0)).ReadDataInto 2 3 (fun _ => 99)).2 i
        = (fun i => (i : Int)) i :=
  matrix_setData_readDataInto_roundtrip (KMatrix.fresh Int)
    (fun i => (i : Int)) (fun _ => 99) (fun _ => 0) 2 3 4
    (by decide) (by decide)

/-- C2: for every stored matrix and every queried shape different from the
stored shape with a nonzero element count, ReadDataInto returns false and
returns the destination buffer unchanged. -/
theorem matrix_readDataInto_mismatch {α : Type} (m : KMatrix α)
    (dest : Buffer α) (r2 c2 : Nat)
    (hne : (r2, c2) ≠ (m.numRows, m.numCols)) (hnz : r2 * c2 ≠ 0) :
    m.ReadDataInto r2 c2 dest = (false, dest) := by
  have h : m.numRows ≠ r2 ∨ m.numCols ≠ c2 := by
    by_contra hcon
    push_neg at hcon
    exact hne (by rw [hcon.1, hcon.2])
  unfold KMatrix.ReadDataInto
  rw [if_neg hnz, if_pos h]

/-- Witness for the shape-mismatch rejection theorem: stored shape (2, 3),
query (3, 2). -/
theorem matrix_readDataInto_mismatch_witness :
    ({ numRows := 2, numCols := 3, stride := 3,
       data := fun _ => (0 : Int) } : KMatrix Int).ReadDataInto 3 2
        (fun _ => 7)
      = (false, fun _ => 7) :=
  matrix_readDataInto_mismatch
    { numRows := 2, numCols := 3, stride := 3, data := fun _ => (0 : Int) }
    (fun _ => 7) 3 2 (by decide) (by decide)

/-- C3: SetData with exactly one of rows and cols equal to zero delegates
to the (0, 0) case before any copy, so the call is equal to SetData with
shape (0, 0) and the stored matrix ends with zero rows and zero columns,
for any source buffer contents. -/
theorem matrix_setData_degenerate {α : Type} (m : KMatrix α)
    (src fD : Buffer α) (rows cols fS : Nat)
    (hdeg : (rows = 0 ∧ cols ≠ 0) ∨ (rows ≠ 0 ∧ cols = 0)) :
    m.SetData src rows cols fS fD = m.SetData src 0 0 fS fD ∧
    (m.SetData src rows cols fS fD).numRows = 0 ∧
    (m.SetData src rows cols fS fD).numCols = 0 := by
  have hc : (rows ≠ 0 ∨ cols ≠ 0) ∧ rows * cols = 0 := by
    rcases hdeg with ⟨h1, h2⟩ | ⟨h1, h2⟩
    · exact ⟨Or.inr h2, by simp [h1]⟩
    · exact ⟨Or.inl h1, by simp [h2]⟩
  have h0 : rows = 0 ∨ cols = 0 := by tauto
  refine ⟨?_, ?_, ?_⟩
  · unfold KMatrix.SetData
    rw [if_pos hc, if_neg (by simp)]
  · rw [(setData_shape m src rows cols fS fD).1, if_pos h0]
  · rw [(setData_shape m src rows cols fS fD).2, if_pos h0]

/-- Witness for the degenerate-shape normalization theorem: SetData with
shape (5, 0). -/
theorem matrix_setData_degenerate_witness :
    (KMatrix.fresh Int).SetData (fun _ => 1) 5 0 0 (fun _ => 0)
      = (KMatrix.fresh Int).SetData (fun _ => 1) 0 0 0 (fun _ => 0) ∧
    ((KMatrix.fresh Int).SetData (fun _ => 1) 5 0 0 (fun _ => 0)).numRows = 0 ∧
    ((KMatrix.fresh Int).SetData (fun _ => 1) 5 0 0 (fun _ => 0)).numCols = 0 :=
  matrix_setData_degenerate (KMatrix.fresh Int) (fun _ => 1) (fun _ => 0)
    5 0 0 (by decide)

/-- C4: for every queried shape whose element count is zero, ReadDataInto
returns true exactly when the stored matrix has zero rows or zero columns,
and returns the destination buffer unchanged; in particular, after the
stored matrix is (0, 0), queries (5, 0), (0, 5) and (0, 0) all succeed
without writing. -/
theorem matrix_readDataInto_empty_query {α : Type} (m : KMatrix α)
    (dest : Buffer α) (r2 c2 : Nat) (hz : r2 * c2 = 0) :
    ((m.ReadDataInto r2 c2 dest).1 = true ↔
      (m.numRows = 0 ∨ m.numCols = 0)) ∧
    (m.ReadDataInto r2 c2 dest).2 = dest := by
  unfold KMatrix.ReadDataInto
  rw [if_pos hz]
  exact ⟨by simp, rfl⟩

/-- Witness for the empty-query theorem: a stored (0, 0) matrix queried at
shape (5, 0). -/
theorem matrix_readDataInto_empty_query_witness :
    (((KMatrix.fresh Int).ReadDataInto 5 0 (fun _ => 7)).1 = true ↔
      ((KMatrix.fresh Int).numRows = 0 ∨ (KMatrix.fresh Int).numCols = 0)) ∧
    ((KMatrix.fresh Int).ReadDataInto 5 0 (fun _ => 7)).2 = (fun _ => 7) :=
  matrix_readDataInto_empty_query (KMatrix.fresh Int) (fun _ => 7) 5 0
    (by decide)

/-- C5: NumpyVector ReadDataInto returns false exactly when the stored
dimension differs from the requested length; on success with length 0 it
performs no copy at all and returns the destination unchanged; on success
with a positive length it copies the full stored contents into the
destination. -/
theorem vector_readDataInto_spec {α : Type} (v : KVector α)
    (dest : Buffer α) (len : Nat) :
    ((v.ReadDataInto len dest).1 = false ↔ v.dim ≠ len) ∧
    (v.dim = len → len = 0 → v.ReadDataInto len dest = (true, dest)) ∧
    (v.dim = len → len ≠ 0 →
      (v.ReadDataInto len dest).1 = true ∧
      ∀ i, i < len → (v.ReadDataInto len dest).2 i = v.data i) := by
  unfold KVector.ReadDataInto
  by_cases h : v.dim ≠ len
  · rw [if_pos h]
    exact ⟨by simp [h], fun he => absurd he h, fun he => absurd he h⟩
  · rw [if_neg h]
    push_neg at h
    by_cases hl : len = 0
    · rw [if_pos hl]
      exact ⟨by simp [h], fun _ _ => rfl, fun _ hlen => absurd hl hlen⟩
    · rw [if_neg hl]
      refine ⟨by simp [h], fun _ h0 => absurd h0 hl, fun _ _ => ⟨rfl, ?_⟩⟩
      intro i hi
      show memcpy dest 0 v.data 0 len i = v.data i
      rw [memcpy_in dest v.data 0 0 len i (Nat.zero_le i) (by omega)]
      simp

/-- Witness for the vector read theorem: stored dimension 3, data 0, 1, 2,
queried at length 3. -/
theorem vector_readDataInto_spec_witness :
    ((({ dim := 3, data := fun i => (i : Int) } : KVector Int).ReadDataInto 3
        (fun _ => 9)).1 = false ↔
      ({ dim := 3, data := fun i => (i : Int) } : KVector Int).dim ≠ 3) ∧
    (({ dim := 3, data := fun i => (i : Int) } : KVector Int).dim = 3 →
      3 = 0 →
      ({ dim := 3, data := fun i => (i : Int) } : KVector Int).ReadDataInto 3
          (fun _ => 9)
        = (true, fun _ => 9)) ∧
    (({ dim := 3, data := fun i => (i : Int) } : KVector Int).dim = 3 →
      3 ≠ 0 →
      ((({ dim := 3, data := fun i => (i : Int) } : KVector Int).ReadDataInto 3
          (fun _ => 9)).1 = true ∧
       ∀ i, i < 3 →
         ((({ dim := 3, data := fun i => (i : Int) } : KVector Int).ReadDataInto
             3 (fun _ => 9)).2 i
           = ({ dim := 3, data := fun i => (i : Int) } : KVector Int).data i))) :=
  vector_readDataInto_spec { dim := 3, data := fun i => (i : Int) }
    (fun _ => 9) 3

/-- C6: the reported dimension of a vector equals the length argument of
the last SetData call and is zero for a default-constructed object, and
the reported shape of a matrix equals the normalized shape of its last
SetData call, where a shape with exactly one zero dimension collapses to
(0, 0); ReadDataInto is a const method, modelled as a pure function of the
object, so it cannot change any of these. -/
theorem dims_track_last_setData {α : Type} [Inhabited α] (v : KVector α)
    (m : KMatrix α) (srcV srcM junk fD : Buffer α)
    (len rows cols fS : Nat) :
    (v.SetData srcV len junk).dim = len ∧
    (m.SetData srcM rows cols fS fD).numRows
      = (if rows = 0 ∨ cols = 0 then 0 else rows) ∧
    (m.SetData srcM rows cols fS fD).numCols
      = (if rows = 0 ∨ cols = 0 then 0 else cols) ∧
    (KVector.fresh α).dim = 0 ∧
    (KMatrix.fresh α).numRows = 0 ∧
    (KMatrix.fresh α).numCols = 0 :=
  ⟨vector_setData_dim v srcV len junk,
   (setData_shape m srcM rows cols fS fD).1,
   (setData_shape m srcM rows cols fS fD).2,
   rfl, rfl, rfl⟩

/-- C7: the row-by-row copy path taken when the internal row stride
exceeds the column count is observationally equivalent to the contiguous
bulk path: SetData with a strictly padded stride followed by ReadDataInto
of the same shape succeeds and reproduces the source exactly, and agrees
element for element with the same operations done with an unpadded
(contiguous) stride. -/
theorem matrix_stride_paths_equiv {α : Type} (m1 m2 : KMatrix α)
    (src dest fD1 fD2 : Buffer α) (rows cols s1 : Nat)
    (hwf1 : m1.numCols ≤ m1.stride) (hwf2 : m2.numCols ≤ m2.stride)
    (hpad : cols < s1) :
    ((m1.SetData src rows cols s1 fD1).ReadDataInto rows cols dest).1
      = true ∧
    ((m2.SetData src rows cols cols fD2).ReadDataInto rows cols dest).1
      = true ∧
    (∀ i, i < rows * cols →
      ((m1.SetData src rows cols s1 fD1).ReadDataInto rows cols dest).2 i
        = src i) ∧
    (∀ i, i < rows * cols →
      ((m1.SetData src rows cols s1 fD1).ReadDataInto rows cols dest).2 i
        = ((m2.SetData src rows cols cols fD2).ReadDataInto rows cols
            dest).2 i) := by
  have h1 := setData_readDataInto_core m1 src dest fD1 rows cols s1 hwf1
    (Nat.le_of_lt hpad)
  have h2 := setData_readDataInto_core m2 src dest fD2 rows cols cols hwf2
    (Nat.le_refl cols)
  exact ⟨h1.1, h2.1, h1.2,
    fun i hi => (h1.2 i hi).trans (h2.2 i hi).symm⟩

/-- Witness for the stride-independence theorem: shape (2, 3), padded
stride 5 against contiguous stride 3. -/
theorem matrix_stride_paths_equiv_witness :
    (((KMatrix.fresh Int).SetData (fun i => (i : Int)) 2 3 5
        (fun _ => 0)).ReadDataInto 2 3 (fun _ => 99)).1 = true ∧
    (((KMatrix.fresh Int).SetData (fun i => (i : Int)) 2 3 3
        (fun _ => 0)).ReadDataInto 2 3 (fun _ => 99)).1 = true ∧
    (∀ i, i < 2 * 3 →
      (((KMatrix.fresh Int).SetData (fun i => (i : Int)) 2 3 5
          (fun _ => 0)).ReadDataInto 2 3 (fun _ => 99)).2 i
        = (fun i => (i : Int)) i) ∧
    (∀ i, i < 2 * 3 →
      (((KMatrix.fresh Int).SetData (fun i => (i : Int)) 2 3 5
          (fun _ => 0)).ReadDataInto 2 3 (fun _ => 99)).2 i
        = (((KMatrix.fresh Int).SetData (fun i => (i : Int)) 2 3 3
            (fun _ => 0)).ReadDataInto 2 3 (fun _ => 99)).2 i) :=
  matrix_stride_paths_equiv (KMatrix.fresh Int) (KMatrix.fresh Int)
    (fun i => (i : Int)) (fun _ => 99) (fun _ => 0) (fun _ => 0) 2 3 5
    (by decide) (by decide) (by decide)

/-- C8: the writer convenience call WriteData produces exactly the record
obtained by default-constructing a vector or matrix, calling SetData on it
from the flat buffer and shape, and passing the result to Write; in both
cases the external store gains exactly that one keyed record. -/
theorem writer_writeData_matches_manual {α : Type} [Inhabited α]
    (storeV : List (String × KVector α)) (storeM : List (String × KMatrix α))
    (key : String) (srcV srcM junk fD : Buffer α)
    (len rows cols fS : Nat) :
    ExtNumpyVectorWriter.WriteData storeV key srcV len junk
      = ExtNumpyVectorWriter.Write storeV key
          ((KVector.fresh α).SetData srcV len junk) ∧
    ExtNumpyMatrixWriter.WriteData storeM key srcM rows cols fS fD
      = ExtNumpyMatrixWriter.Write storeM key
          ((KMatrix.fresh α).SetData srcM rows cols fS fD) ∧
    ExtNumpyVectorWriter.WriteData storeV key srcV len junk
      = storeV ++ [(key, (KVector.fresh α).SetData srcV len junk)] ∧
    ExtNumpyMatrixWriter.WriteData storeM key srcM rows cols fS fD
      = storeM ++ [(key, (KMatrix.fresh α).SetData srcM rows cols fS fD)] :=
  ⟨rfl, rfl, rfl, rfl⟩

/-- C10: whenever NumpyVector ReadDataInto fails because the stored
dimension differs from the requested length, including a length 0 request
against a nonempty vector, it returns false with the destination buffer
unchanged; the failure path returns before the data pointer or the
destination is ever accessed. -/
theorem vector_readDataInto_failure_frame {α : Type} (v : KVector α)
    (dest : Buffer α) (len : Nat) (hne : v.dim ≠ len) :
    v.ReadDataInto len dest = (false, dest) := by
  unfold KVector.ReadDataInto
  rw [if_pos hne]

/-- Witness for the vector failure-frame theorem: stored dimension 2,
requested length 0. -/
theorem vector_readDataInto_failure_frame_witness :
    ({ dim := 2, data := fun i => (i : Int) } : KVector Int).ReadDataInto 0
        (fun _ => 7)
      = (false, fun _ => 7) :=
  vector_readDataInto_failure_frame
    { dim := 2, data := fun i => (i : Int) } (fun _ => 7) 0 (by decide)
